import Mathlib

/-!
A verification development for the `aido` PR-review pipeline
(`.github/scripts/review/aido-review.js` and its sibling scripts).

The JavaScript source is shallowly embedded: strings are represented as
`List Char` (every string reaching these functions in practice is ASCII;
`String.data` converts at the boundary), JS numbers that hold line counters
are represented as `Int` (they stay well inside the exact-integer range of
doubles), and the specific regular expressions used by the source are
implemented as deterministic scanners over `List Char` (each of those
regexes is backtracking-free in the sense that the greedy scan is the only
possible match attempt at a given start position, so a left-to-right scan
over start positions is exactly the JS `RegExp` search semantics).
-/

deriving instance DecidableEq for Except

namespace Aido

/-! ### Character classes used by the source's regexes -/

/-- JS regex `\d`. -/
def isDigitChar (c : Char) : Bool := c.isDigit

/-- JS regex `\w`, i.e. `[a-zA-Z0-9_]`. -/
def isWordChar (c : Char) : Bool :=
  (('a' ≤ c && c ≤ 'z') || ('A' ≤ c && c ≤ 'Z') || c.isDigit || c == '_')

/-- First character class of the identifier regex `[a-zA-Z_][a-zA-Z0-9_]*`. -/
def isIdentStartChar (c : Char) : Bool :=
  (('a' ≤ c && c ≤ 'z') || ('A' ≤ c && c ≤ 'Z') || c == '_')

/-- JS regex `\s` and the characters stripped by `String.prototype.trim`,
restricted to its ASCII members (the inputs handled here are ASCII). -/
def isSpaceChar (c : Char) : Bool :=
  (c == ' ' || c == '\t' || c == '\n' || c == '\r' ||
   c == Char.ofNat 11 || c == Char.ofNat 12)

/-- The single-quote character, written by code point to keep source text plain. -/
def squote : Char := Char.ofNat 39

/-- The double-quote character, written by code point to keep source text plain. -/
def dquote : Char := Char.ofNat 34

/-! ### Generic string helpers (JS semantics) -/

/-- `String.prototype.split('\n')` on the character list of a string. -/
def splitLines : List Char → List (List Char)
  | [] => [[]]
  | c :: rest =>
    if c == '\n' then [] :: splitLines rest
    else
      match splitLines rest with
      | [] => [[c]]
      | l :: ls => (c :: l) :: ls

/-- `String.prototype.trim` (ASCII whitespace). -/
def jsTrim (cs : List Char) : List Char :=
  ((cs.dropWhile isSpaceChar).reverse.dropWhile isSpaceChar).reverse

/-- ASCII `String.prototype.toLowerCase`. -/
def jsToLower (cs : List Char) : List Char := cs.map Char.toLower

/-- ASCII `String.prototype.toUpperCase`. -/
def jsToUpper (cs : List Char) : List Char := cs.map Char.toUpper

/-- Does the list start with the given literal?  Returns the remainder. -/
def dropLit : List Char → List Char → Option (List Char)
  | [], cs => some cs
  | _ :: _, [] => none
  | p :: ps, c :: cs => if p == c then dropLit ps cs else none

/-- Boolean prefix test (`startsWith` of a literal pattern). -/
def startsLit (pat cs : List Char) : Bool := (dropLit pat cs).isSome

/-- Greedy `\d+`/`\d*`: the leading digit run and the remainder. -/
def takeDigits : List Char → List Char × List Char
  | [] => ([], [])
  | c :: rest =>
    if isDigitChar c then
      let (ds, r) := takeDigits rest
      (c :: ds, r)
    else ([], c :: rest)

/-- `parseInt(digits, 10)` for a nonempty decimal digit run. -/
def digitsToNat (ds : List Char) : Nat :=
  ds.foldl (fun n c => 10 * n + (c.toNat - 48)) 0

/-! ### The two hunk-header regexes

`buildLineMap` uses `@@ -\d+(?:,\d+)? \+(\d+)(?:,\d+)? @@` while
`findPositionInPatch` uses `@@ -(\d+),?\d* \+(\d+),?\d* @@`.  Both are
searched (not anchored) inside a line that starts with `@@`; each returns
the captured new-side start number.  At a fixed start position both
patterns are deterministic: after a greedy `\d+` the following characters
cannot re-enter a digit alternative, so no backtracking can succeed where
the greedy scan fails. -/

/-- `(?:,\d+)?` — a comma is consumed only together with at least one digit. -/
def consumeCommaDigitsB (cs : List Char) : List Char :=
  match cs with
  | ',' :: r =>
    let (ds, r2) := takeDigits r
    if ds.isEmpty then cs else r2
  | _ => cs

/-- `,?\d*` — an optional comma, then any digits. -/
def consumeCommaDigitsF (cs : List Char) : List Char :=
  match cs with
  | ',' :: r => (takeDigits r).2
  | _ => cs

/-- Anchored attempt of `buildLineMap`'s header regex: on success, the
captured `+` side start number. -/
def matchHeaderB : List Char → Option Nat
  | '@' :: '@' :: ' ' :: '-' :: rest =>
    let (d1, r1) := takeDigits rest
    if d1.isEmpty then none
    else
      match consumeCommaDigitsB r1 with
      | ' ' :: '+' :: r2 =>
        let (d2, r3) := takeDigits r2
        if d2.isEmpty then none
        else
          match consumeCommaDigitsB r3 with
          | ' ' :: '@' :: '@' :: _ => some (digitsToNat d2)
          | _ => none
      | _ => none
  | _ => none

/-- Anchored attempt of `findPositionInPatch`'s header regex: on success,
the captured `+` side start number (its `m[2]`). -/
def matchHeaderF : List Char → Option Nat
  | '@' :: '@' :: ' ' :: '-' :: rest =>
    let (d1, r1) := takeDigits rest
    if d1.isEmpty then none
    else
      match consumeCommaDigitsF r1 with
      | ' ' :: '+' :: r2 =>
        let (d2, r3) := takeDigits r2
        if d2.isEmpty then none
        else
          match consumeCommaDigitsF r3 with
          | ' ' :: '@' :: '@' :: _ => some (digitsToNat d2)
          | _ => none
      | _ => none
  | _ => none

/-- Leftmost search of `buildLineMap`'s header regex. -/
def searchHeaderB : List Char → Option Nat
  | [] => none
  | c :: rest =>
    match matchHeaderB (c :: rest) with
    | some n => some n
    | none => searchHeaderB rest

/-- Leftmost search of `findPositionInPatch`'s header regex. -/
def searchHeaderF : List Char → Option Nat
  | [] => none
  | c :: rest =>
    match matchHeaderF (c :: rest) with
    | some n => some n
    | none => searchHeaderF rest

/-- `line.startsWith('@@')`. -/
def isHeaderLine (line : List Char) : Bool :=
  match line with
  | a :: b :: _ => a == '@' && b == '@'
  | _ => false

/-! ### buildLineMap (`aido-review.js` 266–297)

The JS `Map` is modelled as the list of `set` calls in order; `get`
returns the value of the last `set` for the key and `has` tests any. -/

inductive LineType where
  | add
  | context
deriving DecidableEq

/-- One entry of the line map: the `{ exists: true, content, type }` record
(the constant `exists: true` field is omitted — it is read nowhere). -/
structure LineInfo where
  content : List Char
  type : LineType
deriving DecidableEq

abbrev LineMap := List (Int × LineInfo)

/-- `Map.prototype.set` — appending reproduces `get`/`has` behaviour
(the map key order is never iterated by the source). -/
def mapSet (m : LineMap) (k : Int) (v : LineInfo) : LineMap := m ++ [(k, v)]

/-- `Map.prototype.has`. -/
def mapHas (m : LineMap) (k : Int) : Bool := m.any (fun e => e.1 == k)

/-- `Map.prototype.get` (the value of the latest `set` for the key). -/
def mapGet (m : LineMap) (k : Int) : Option LineInfo :=
  (m.reverse.find? (fun e => e.1 == k)).map (fun e => e.2)

/-- The loop body of `buildLineMap`, over the lines of the patch.  The
`startsWith` tests on `-`, `+` and a space are head tests; `line.tail` is
`line.substring(1)`. -/
def buildLineMapLines : List (List Char) → Int → LineMap → LineMap
  | [], _, m => m
  | line :: rest, newLineNum, m =>
    if isHeaderLine line then
      match searchHeaderB line with
      | some n => buildLineMapLines rest (Int.ofNat n) m
      | none => buildLineMapLines rest newLineNum m
    else if newLineNum == 0 then buildLineMapLines rest newLineNum m
    else if line.head? == some '-' then buildLineMapLines rest newLineNum m
    else if line.head? == some '+' then
      buildLineMapLines rest (newLineNum + 1) (mapSet m newLineNum ⟨line.tail, .add⟩)
    else if line.head? == some ' ' then
      buildLineMapLines rest (newLineNum + 1) (mapSet m newLineNum ⟨line.tail, .context⟩)
    else buildLineMapLines rest newLineNum m

/-- `buildLineMap(patch)`. -/
def buildLineMap (patch : String) : LineMap :=
  buildLineMapLines (splitLines patch.data) 0 []

/-! ### findPositionInPatch (`part_006` 304–326) -/

/-- The loop of `findPositionInPatch`: `i` is the 0-based raw line index,
`currentLine` the synthesized new-file counter. -/
def findPositionInPatchLines : List (List Char) → Nat → Int → Int → Option Nat
  | [], _, _, _ => none
  | line :: rest, i, currentLine, target =>
    if isHeaderLine line then
      match searchHeaderF line with
      | some n => findPositionInPatchLines rest (i + 1) (Int.ofNat n - 1) target
      | none => findPositionInPatchLines rest (i + 1) currentLine target
    else if line.head? == some '-' then findPositionInPatchLines rest (i + 1) currentLine target
    else if line.head? == some '+' || line.head? == some ' ' then
      if currentLine + 1 == target then some (i + 1)
      else findPositionInPatchLines rest (i + 1) (currentLine + 1) target
    else findPositionInPatchLines rest (i + 1) currentLine target

/-- `findPositionInPatch(patch, targetLine)`; `some p` is the 1-based index
into the patch's raw lines returned for the GitHub review `position`. -/
def findPositionInPatch (patch : String) (targetLine : Int) : Option Nat :=
  findPositionInPatchLines (splitLines patch.data) 0 0 targetLine

/-! ### Identifier extraction (`aido-review.js` 323–326)

`text.match(/[a-zA-Z_][a-zA-Z0-9_]*/g)` yields, for every maximal run of
word characters, the run with its leading digits stripped (the match
starts at the first letter/underscore of the run and greedily swallows the
rest), provided something is left.  `new Set(...)` keeps the first
occurrence of each distinct token; only sizes and membership of the set
are ever used, so it is modelled as a duplicate-free list. -/

/-- One step of the global identifier match: `acc` is the word run
currently being read, reversed. -/
def identRunsAux : List Char → List Char → List (List Char)
  | [], acc => if acc.isEmpty then [] else [acc.reverse]
  | c :: rest, acc =>
    if isWordChar c then identRunsAux rest (c :: acc)
    else if acc.isEmpty then identRunsAux rest []
    else acc.reverse :: identRunsAux rest []

/-- All matches of `/[a-zA-Z_][a-zA-Z0-9_]*/g`: each maximal word run with
its leading digits stripped, when nonempty. -/
def identMatches (cs : List Char) : List (List Char) :=
  (identRunsAux cs []).filterMap fun run =>
    let t := run.dropWhile isDigitChar
    if t.isEmpty then none else some t

/-- Keep the first occurrence of each element (JS `Set` insertion order). -/
def dedupFirst : List (List Char) → List (List Char) → List (List Char)
  | [], _ => []
  | x :: xs, seen =>
    if seen.contains x then dedupFirst xs seen
    else x :: dedupFirst xs (x :: seen)

/-- `extractIdentifiers(text)`: tokens of length > 2, as a set. -/
def extractIdentifiers (cs : List Char) : List (List Char) :=
  dedupFirst ((identMatches cs).filter fun w => 2 < w.length) []

/-! ### The structural-feature regexes (`aido-review.js` 342–363) -/

/-- Word-boundary test for the character preceding a match position. -/
def boundaryBefore : Option Char → Bool
  | none => true
  | some c => !isWordChar c

/-- Search driver threading the previous character (for `\b` patterns). -/
def anyPosPrev (f : Option Char → List Char → Bool) : Option Char → List Char → Bool
  | prev, [] => f prev []
  | prev, c :: rest => f prev (c :: rest) || anyPosPrev f (some c) rest

/-- Search driver without boundary context. -/
def anyPos (f : List Char → Bool) : List Char → Bool
  | [] => f []
  | c :: rest => f (c :: rest) || anyPos f rest

/-- Anchored `\bword\b` (the tail boundary checks the character after the
literal). -/
def matchWordHere (w : List Char) (prev : Option Char) (cs : List Char) : Bool :=
  boundaryBefore prev &&
    match dropLit w cs with
    | some [] => true
    | some (c :: _) => !isWordChar c
    | none => false

/-- `/\bword\b/.test(text)`. -/
def testWord (w : List Char) (cs : List Char) : Bool :=
  anyPosPrev (matchWordHere w) none cs

/-- Anchored `\bword\s*\(`. -/
def matchWordParenHere (w : List Char) (prev : Option Char) (cs : List Char) : Bool :=
  boundaryBefore prev &&
    match dropLit w cs with
    | some r => (r.dropWhile isSpaceChar).head? == some '('
    | none => false

/-- `/\bword\s*\(/.test(text)`. -/
def testWordParen (w : List Char) (cs : List Char) : Bool :=
  anyPosPrev (matchWordParenHere w) none cs

/-- The literal alternatives of `return\s+(?:false|null|true|-?\d+|['"])`,
tried on already-lowercased text. -/
def earlyReturnLiteral (cs : List Char) : Bool :=
  startsLit "false".data cs || startsLit "null".data cs || startsLit "true".data cs ||
    (match cs with
     | '-' :: d :: _ => isDigitChar d
     | d :: _ => isDigitChar d || d == squote || d == dquote
     | [] => false)

/-- Anchored `\breturn\s+(?:false|null|true|-?\d+|['"])` on lowercased text. -/
def matchEarlyReturnHere (prev : Option Char) (cs : List Char) : Bool :=
  boundaryBefore prev &&
    match dropLit "return".data cs with
    | some (c :: r) => isSpaceChar c && earlyReturnLiteral (r.dropWhile isSpaceChar)
    | _ => false

/-- `/\breturn\s+(?:false|null|true|-?\d+|['"])/i.test(text)` (the `i` flag
is realised by lowercasing the ASCII text first). -/
def testEarlyReturn (cs : List Char) : Bool :=
  anyPosPrev matchEarlyReturnHere none (jsToLower cs)

/-- Anchored attempt of
`isset\s*\(|!==\s*(?:null|undefined)|===\s*(?:null|undefined)`. -/
def matchExistenceHere (cs : List Char) : Bool :=
  (match dropLit "isset".data cs with
   | some r => (r.dropWhile isSpaceChar).head? == some '('
   | none => false) ||
  (match dropLit "!==".data cs with
   | some r =>
     let r2 := r.dropWhile isSpaceChar
     startsLit "null".data r2 || startsLit "undefined".data r2
   | none => false) ||
  (match dropLit "===".data cs with
   | some r =>
     let r2 := r.dropWhile isSpaceChar
     startsLit "null".data r2 || startsLit "undefined".data r2
   | none => false)

/-- `/isset\s*\(|!==\s*(?:null|undefined)|===\s*(?:null|undefined)/.test(text)`. -/
def testExistence (cs : List Char) : Bool := anyPos matchExistenceHere cs

/-- `/\[[^\]]+\]/.test(text)`: an opening bracket whose following run up to
the next closing bracket is nonempty, the closing bracket present. -/
def testArrayAccess : List Char → Bool
  | [] => false
  | '[' :: rest =>
    (match rest with
     | c :: rs => c != ']' && (c == ']' || rs.contains ']')
     | [] => false) || testArrayAccess rest
  | _ :: rest => testArrayAccess rest

/-- `/\w+\s*\(/.test(text)`. -/
def testMethodCall : List Char → Bool
  | [] => false
  | c :: rest =>
    (isWordChar c && ((rest.dropWhile isWordChar).dropWhile isSpaceChar).head? == some '(') ||
      testMethodCall rest

/-- `/=(?!=)/.test(text)`: an equals sign not directly followed by another. -/
def testEqNotEq : List Char → Bool
  | [] => false
  | '=' :: rest =>
    (match rest with
     | '=' :: _ => false
     | _ => true) || testEqNotEq rest
  | _ :: rest => testEqNotEq rest

/-- `/[=!<>]=/.test(text)`. -/
def testCmpEq : List Char → Bool
  | a :: b :: rest =>
    ((a == '=' || a == '!' || a == '<' || a == '>') && b == '=') || testCmpEq (b :: rest)
  | _ => false

/-- The feature vector computed by `extractStructure` (17 boolean fields,
in the source's key order). -/
structure CodeStructure where
  hasReturn : Bool
  hasForeach : Bool
  hasFor : Bool
  hasWhile : Bool
  hasIf : Bool
  hasElse : Bool
  hasTry : Bool
  hasCatch : Bool
  hasThrow : Bool
  hasFunction : Bool
  hasClass : Bool
  hasSwitch : Bool
  hasEarlyReturn : Bool
  hasExistenceCheck : Bool
  hasArrayAccess : Bool
  hasMethodCall : Bool
  hasAssignment : Bool
deriving DecidableEq

/-- `extractStructure(text)` (`aido-review.js` 342–363). -/
def extractStructure (text : List Char) : CodeStructure where
  hasReturn := testWord "return".data text
  hasForeach := testWord "foreach".data text
  hasFor := testWordParen "for".data text
  hasWhile := testWordParen "while".data text
  hasIf := testWordParen "if".data text
  hasElse := testWord "else".data text
  hasTry := testWord "try".data text
  hasCatch := testWord "catch".data text
  hasThrow := testWord "throw".data text
  hasFunction := testWord "function".data text
  hasClass := testWord "class".data text
  hasSwitch := testWordParen "switch".data text
  hasEarlyReturn := testEarlyReturn text
  hasExistenceCheck := testExistence text
  hasArrayAccess := testArrayAccess text
  hasMethodCall := testMethodCall text
  hasAssignment := testEqNotEq text && !testCmpEq text

/-- `Object.keys(structure)` order, as the list of field values. -/
def structFields (c : CodeStructure) : List Bool :=
  [c.hasReturn, c.hasForeach, c.hasFor, c.hasWhile, c.hasIf, c.hasElse, c.hasTry,
   c.hasCatch, c.hasThrow, c.hasFunction, c.hasClass, c.hasSwitch, c.hasEarlyReturn,
   c.hasExistenceCheck, c.hasArrayAccess, c.hasMethodCall, c.hasAssignment]

/-- `structuralChanges.length`: the number of differing features. -/
def structuralChanges (a b : CodeStructure) : Nat :=
  ((structFields a).zip (structFields b)).countP fun p => p.1 != p.2

/-! ### validateSuggestion (`aido-review.js` 303–455) -/

/-- The candidate fields read by `validateSuggestion`. -/
structure Suggestion where
  startLine : Int
  endLine : Int
  code : List Char
  issue : List Char
deriving DecidableEq

/-- The verdict object: `{ valid, reason? , actualCode? }`. -/
structure Verdict where
  valid : Bool
  reason : Option (List Char)
  actualCode : Option (List Char)
deriving DecidableEq

/-- `for (let i = startLine; i <= endLine; i++)` as the list of visited `i`. -/
def intRange (a b : Int) : List Int :=
  (List.range (b - a + 1).toNat).map fun k => a + (k : Int)

/-- The first `i` in `[startLine, endLine]` with `!lineMap.has(i)`. -/
def firstMissingLine (s : Suggestion) (m : LineMap) : Option Int :=
  (intRange s.startLine s.endLine).find? fun i => !mapHas m i

/-- `actualLines`: the recorded contents of the range (total; the `getD`
default is unreachable when every line exists). -/
def actualLinesOf (s : Suggestion) (m : LineMap) : List (List Char) :=
  (intRange s.startLine s.endLine).map fun i => ((mapGet m i).map LineInfo.content).getD []

/-- `actualCode = actualLines.join('\n').trim()`. -/
def actualCodeOf (s : Suggestion) (m : LineMap) : List Char :=
  jsTrim (List.intercalate ['\n'] (actualLinesOf s m))

/-- `suggestedCode = code.trim()`. -/
def suggestedCodeOf (s : Suggestion) : List Char := jsTrim s.code

/-- `actualIds = extractIdentifiers(actualCode)`. -/
def actualIdsOf (s : Suggestion) (m : LineMap) : List (List Char) :=
  extractIdentifiers (actualCodeOf s m)

/-- `suggestedIds = extractIdentifiers(code)` (the untrimmed field). -/
def suggestedIdsOf (s : Suggestion) : List (List Char) :=
  extractIdentifiers s.code

/-- `commonIds = Array.from(actualIds).filter(id => suggestedIds.has(id))`. -/
def commonIdsOf (s : Suggestion) (m : LineMap) : List (List Char) :=
  (actualIdsOf s m).filter fun id => (suggestedIdsOf s).contains id

/-- `overlapRatio` (exact rational arithmetic, written with `mkRat`, which
equals the division `commonIds.length / Math.max(...)` by
`Rat.mkRat_eq_div`; for every feasible pair of set sizes the JS double
comparison against `0.2` agrees with the exact one). -/
def overlapRatioVal (s : Suggestion) (m : LineMap) : ℚ :=
  if 0 < (actualIdsOf s m).length ∧ 0 < (suggestedIdsOf s).length then
    mkRat ((commonIdsOf s m).length : Int) (max (actualIdsOf s m).length (suggestedIdsOf s).length)
  else 0

/-- `extractStructure(actualCode)`. -/
def actualStructureOf (s : Suggestion) (m : LineMap) : CodeStructure :=
  extractStructure (actualCodeOf s m)

/-- `extractStructure(suggestedCode)`. -/
def suggestedStructureOf (s : Suggestion) : CodeStructure :=
  extractStructure (suggestedCodeOf s)

/-- `structuralChanges.length` for the candidate. -/
def structuralChangesOf (s : Suggestion) (m : LineMap) : Nat :=
  structuralChanges (actualStructureOf s m) (suggestedStructureOf s)

/-- `/remov.*(?:check|validat|isset)|skip.*(?:check|validat)/i`'s `.*`
stage: skip non-newline characters until one of the targets matches. -/
def dotStarThen (targets : List (List Char)) : List Char → Bool
  | [] => false
  | c :: rest =>
    targets.any (fun t => startsLit t (c :: rest)) || (c != '\n' && dotStarThen targets rest)

/-- Anchored attempt of either alternative of the justification regex. -/
def matchIssueExplicitHere (cs : List Char) : Bool :=
  (match dropLit "remov".data cs with
   | some r => dotStarThen ["check".data, "validat".data, "isset".data] r
   | none => false) ||
  (match dropLit "skip".data cs with
   | some r => dotStarThen ["check".data, "validat".data] r
   | none => false)

/-- `issueExplicit`: `/remov.*(?:check|validat|isset)|skip.*(?:check|validat)/i.test(issue)`. -/
def issueExplicit (issue : List Char) : Bool :=
  anyPos matchIssueExplicitHere (jsToLower issue)

/-- `getFirstToken`: first match of `/\b[a-zA-Z_][a-zA-Z0-9_]*\b/`, else
the empty string.  The leading `\b` skips word runs that open with a
digit; the trailing `\b` always holds after the greedy `\w*`. -/
def getFirstTokenAux : Option Char → List Char → List Char
  | _, [] => []
  | prev, c :: rest =>
    if boundaryBefore prev && isIdentStartChar c then c :: rest.takeWhile isWordChar
    else getFirstTokenAux (some c) rest

/-- `getFirstToken(line)`. -/
def getFirstToken (line : List Char) : List Char := getFirstTokenAux none line

/-- `actualLines[0].trim()` inside the multi-line continuity check. -/
def actualFirstLineOf (s : Suggestion) (m : LineMap) : List Char :=
  jsTrim ((actualLinesOf s m).headD [])

/-- `suggestedCode.split('\n')[0].trim()`. -/
def suggestedFirstLineOf (s : Suggestion) : List Char :=
  jsTrim ((suggestedCodeOf s).takeWhile fun c => c != '\n')

/-- `Math.round(overlapRatio * 100)` (the ratio is nonnegative). -/
def roundedPercent (q : ℚ) : Int := ⌊q * 100 + 1 / 2⌋

/-- Reason string of the line-existence rejection. -/
def lineNotFoundReason (i : Int) : List Char :=
  "Line ".data ++ ((toString i).data ++ " not found in diff".data)

/-- Reason string of the guard-clause rejection. -/
def guardReason (actualCode : List Char) : List Char :=
  "Removes guard clause/early return without explanation. Actual: ".data ++
    ([dquote] ++ (actualCode.take 80 ++ [dquote]))

/-- Reason string of the existence-check rejection. -/
def existenceReason (actualCode : List Char) : List Char :=
  "Removes existence/validation check without explicit justification. Actual: ".data ++
    ([dquote] ++ (actualCode.take 80 ++ [dquote]))

/-- Reason string of the control-flow-rewrite rejection. -/
def rewriteReason (actualCode : List Char) : List Char :=
  "Completely rewrites control flow with minimal identifier overlap. ".data ++
    ("This looks like wrong line targeting. Actual: ".data ++
      ([dquote] ++ (actualCode.take 80 ++ [dquote])))

/-- Reason string of the insufficient-overlap rejection. -/
def overlapReason (q : ℚ) (actualCode suggestedCode : List Char) : List Char :=
  "Insufficient identifier overlap (".data ++
    ((toString (roundedPercent q)).data ++
      ("%). Actual: ".data ++
        ([dquote] ++ (actualCode.take 60 ++
          ([dquote] ++ (", Suggested: ".data ++
            ([dquote] ++ (suggestedCode.take 60 ++ [dquote]))))))))

/-- The uncaught JS exception raised at line 443: `commonIds` is an Array,
which has no `has` method, so evaluating `commonIds.has(actualToken)`
throws once the three preceding conjuncts are truthy. -/
def commonIdsHasTypeError : List Char :=
  "TypeError: commonIds.has is not a function".data

/-- Condition of the guard-clause rejection (line 374). -/
abbrev guardFires (s : Suggestion) (m : LineMap) : Prop :=
  (actualStructureOf s m).hasEarlyReturn ∧ ¬(suggestedStructureOf s).hasEarlyReturn

/-- Condition of the existence-check rejection (lines 382–387). -/
abbrev existenceFires (s : Suggestion) (m : LineMap) : Prop :=
  (actualStructureOf s m).hasExistenceCheck ∧
    ¬(suggestedStructureOf s).hasExistenceCheck ∧ ¬issueExplicit s.issue

/-- Condition of the control-flow-rewrite rejection (lines 396–401). -/
abbrev rewriteFires (s : Suggestion) (m : LineMap) : Prop :=
  3 ≤ structuralChangesOf s m ∧
    ((actualStructureOf s m).hasIf ≠ (suggestedStructureOf s).hasIf ∨
      (actualStructureOf s m).hasForeach ≠ (suggestedStructureOf s).hasForeach) ∧
    (commonIdsOf s m).length < 2

/-- Condition of the short-snippet acceptance (lines 409–412). -/
abbrev lenientAccepts (s : Suggestion) (m : LineMap) : Prop :=
  (actualCodeOf s m).length < 20 ∧
    (0 < (commonIdsOf s m).length ∨ (suggestedCodeOf s).length < 20)

/-- Condition of the overlap-floor rejection (line 417). -/
abbrev overlapFires (s : Suggestion) (m : LineMap) : Prop :=
  0 < (actualIdsOf s m).length ∧ 0 < (suggestedIdsOf s).length ∧
    overlapRatioVal s m < mkRat 1 5

/-- The three conjuncts evaluated before `commonIds.has` in the multi-line
continuity condition (lines 440–442). -/
abbrev tokensClash (s : Suggestion) (m : LineMap) : Prop :=
  getFirstToken (actualFirstLineOf s m) ≠ [] ∧
    getFirstToken (suggestedFirstLineOf s) ≠ [] ∧
    getFirstToken (actualFirstLineOf s m) ≠ getFirstToken (suggestedFirstLineOf s)

/-- `validateSuggestion(suggestion, lineMap)` (`aido-review.js` 303–455).
`Except.error` models the uncaught `TypeError` thrown inside the
multi-line continuity check; the rejection at lines 447–451 is dead code
because evaluating its guard throws first, so no verdict for it exists. -/
def validateSuggestion (s : Suggestion) (m : LineMap) : Except (List Char) Verdict :=
  match firstMissingLine s m with
  | some i => .ok ⟨false, some (lineNotFoundReason i), none⟩
  | none =>
    if guardFires s m then
      .ok ⟨false, some (guardReason (actualCodeOf s m)), none⟩
    else if existenceFires s m then
      .ok ⟨false, some (existenceReason (actualCodeOf s m)), none⟩
    else if rewriteFires s m then
      .ok ⟨false, some (rewriteReason (actualCodeOf s m)), none⟩
    else if lenientAccepts s m then
      .ok ⟨true, none, some (actualCodeOf s m)⟩
    else if overlapFires s m then
      .ok ⟨false,
        some (overlapReason (overlapRatioVal s m) (actualCodeOf s m) (suggestedCodeOf s)), none⟩
    else if 2 ≤ s.endLine - s.startLine then
      if tokensClash s m then .error commonIdsHasTypeError
      else .ok ⟨true, none, some (actualCodeOf s m)⟩
    else .ok ⟨true, none, some (actualCodeOf s m)⟩

/-! ### Instrumented and spec-side replays of the diff walk -/

/-- `buildLineMap`'s walk, additionally recording for every `set` call the
1-based index (into the patch's raw lines) of the line that produced it —
the same quantity `findPositionInPatch` returns as a position.  `i` is the
0-based index of the current line. -/
def buildLineMapRecords : List (List Char) → Nat → Int → List (Int × Nat × LineInfo)
  | [], _, _ => []
  | line :: rest, i, newLineNum =>
    if isHeaderLine line then
      match searchHeaderB line with
      | some n => buildLineMapRecords rest (i + 1) (Int.ofNat n)
      | none => buildLineMapRecords rest (i + 1) newLineNum
    else if newLineNum == 0 then buildLineMapRecords rest (i + 1) newLineNum
    else if line.head? == some '-' then buildLineMapRecords rest (i + 1) newLineNum
    else if line.head? == some '+' then
      (newLineNum, i + 1, ⟨line.tail, .add⟩) :: buildLineMapRecords rest (i + 1) (newLineNum + 1)
    else if line.head? == some ' ' then
      (newLineNum, i + 1, ⟨line.tail, .context⟩) :: buildLineMapRecords rest (i + 1) (newLineNum + 1)
    else buildLineMapRecords rest (i + 1) newLineNum

/-- The instrumented records of a whole patch. -/
def patchRecords (patch : String) : List (Int × Nat × LineInfo) :=
  buildLineMapRecords (splitLines patch.data) 0 0

/-- The diff replay exactly as the specification words it: a hunk header
matching the pattern resets the counter to `newStart`; deletions are
skipped without advancing; additions and context lines record an entry at
the counter and advance it; lines before the first (matched) hunk header
are ignored.  `seenHeader` tracks whether a hunk header has been seen. -/
def specDiffReplay : List (List Char) → Bool → Int → List (Int × LineInfo)
  | [], _, _ => []
  | line :: rest, seenHeader, counter =>
    if isHeaderLine line then
      match searchHeaderB line with
      | some n => specDiffReplay rest true (Int.ofNat n)
      | none => specDiffReplay rest seenHeader counter
    else if !seenHeader then specDiffReplay rest seenHeader counter
    else if line.head? == some '-' then specDiffReplay rest seenHeader counter
    else if line.head? == some '+' then
      (counter, ⟨line.tail, .add⟩) :: specDiffReplay rest seenHeader (counter + 1)
    else if line.head? == some ' ' then
      (counter, ⟨line.tail, .context⟩) :: specDiffReplay rest seenHeader (counter + 1)
    else specDiffReplay rest seenHeader counter

/-- The amended replay: instead of "before the first hunk header", lines
are ignored exactly while the counter is `0` (its initial value, restored
by any hunk header whose new-side start is `0`). -/
def specDiffReplayGuarded : List (List Char) → Int → List (Int × LineInfo)
  | [], _ => []
  | line :: rest, counter =>
    if isHeaderLine line then
      match searchHeaderB line with
      | some n => specDiffReplayGuarded rest (Int.ofNat n)
      | none => specDiffReplayGuarded rest counter
    else if counter == 0 then specDiffReplayGuarded rest counter
    else if line.head? == some '-' then specDiffReplayGuarded rest counter
    else if line.head? == some '+' then
      (counter, ⟨line.tail, .add⟩) :: specDiffReplayGuarded rest (counter + 1)
    else if line.head? == some ' ' then
      (counter, ⟨line.tail, .context⟩) :: specDiffReplayGuarded rest (counter + 1)
    else specDiffReplayGuarded rest counter

/-! ### Well-formedness of a patch for position resolution

`buildLineMap` and `findPositionInPatch` parse hunk headers with two
different regexes, and `findPositionInPatch` counts addition/context lines
even before any hunk header while `buildLineMap` ignores them.  The two
walks agree on patches whose header lines parse identically (to a start
number of at least 1) under both regexes and which have no addition or
context line before the first recognised hunk header. -/

/-- A line is harmless for the header stage: not a header, or parsed
identically by both header regexes with a positive new-side start. -/
def headerLineOk (line : List Char) : Bool :=
  !isHeaderLine line ||
    (searchHeaderB line == searchHeaderF line &&
      (match searchHeaderB line with
       | some n => decide (1 ≤ n)
       | none => true))

/-- No `+`/` ` line occurs before the first recognised hunk header. -/
def noPlusSpaceBeforeFirstHeader : List (List Char) → Bool
  | [] => true
  | line :: rest =>
    if isHeaderLine line && (searchHeaderB line).isSome then true
    else if line.head? == some '+' || line.head? == some ' ' then false
    else noPlusSpaceBeforeFirstHeader rest

/-- Patches on which the two line walks are in lock step. -/
def wellFormedPatch (patch : String) : Bool :=
  (splitLines patch.data).all headerLineOk &&
    noPlusSpaceBeforeFirstHeader (splitLines patch.data)

/-! ### parseSuggestions (`aido-review.js` 457–537)

The leading regex scan over the LLM markdown produces, per match, the six
captured groups; the per-match processing and the deduplication pass are
embedded on top of that match list (`RawMatch` stands for one element of
the `re.exec` stream, with `[]` for an absent optional group, exactly the
strings the source's `|| ''` fallbacks produce). -/

/-- One changed PR file as consumed here: `filename` and `patch` (`none`
models a missing patch, e.g. a binary or removed file). -/
structure PRFile where
  filename : List Char
  patch : Option (List Char)
deriving DecidableEq

/-- The captured groups of one suggestion-block regex match. -/
structure RawMatch where
  fileLabel : List Char
  linesLabel : List Char
  issue : List Char
  prioRaw : List Char
  code : List Char
  codeAlt : List Char
deriving DecidableEq

/-- One parsed suggestion record as pushed by the loop. -/
structure ParsedSuggestion where
  path : List Char
  issue : List Char
  code : List Char
  startLine : Int
  endLine : Int
  priority : List Char
  file : PRFile
deriving DecidableEq

/-- `String.prototype.includes`: the pattern occurs as a contiguous
substring. -/
def containsSub (pat cs : List Char) : Bool := anyPos (startsLit pat) cs

/-- The disjunction of the five path-matching criteria applied to one
changed file (`aido-review.js` 486–491). -/
def fileMatchPred (filename : List Char) (f : PRFile) : Bool :=
  f.filename == filename ||
    filename.isSuffixOf f.filename ||
    f.filename.isSuffixOf filename ||
    containsSub filename f.filename ||
    containsSub f.filename filename

/-- `files.find(f => ...)`: the first array element matching any criterion. -/
def resolveFile (filename : List Char) (files : List PRFile) : Option PRFile :=
  files.find? (fileMatchPred filename)

/-- JS falsiness of `file.patch`. -/
def patchFalsy : Option (List Char) → Bool
  | none => true
  | some p => p.isEmpty

/-- First match of `/(\d+)(?:-(\d+))?/`: start line and optional end line. -/
def lineRangeMatch : List Char → Option (Nat × Option Nat)
  | [] => none
  | c :: rest =>
    if isDigitChar c then
      let (ds, r) := takeDigits (c :: rest)
      match r with
      | '-' :: r2 =>
        let (ds2, _) := takeDigits r2
        if ds2.isEmpty then some (digitsToNat ds, none)
        else some (digitsToNat ds, some (digitsToNat ds2))
      | _ => some (digitsToNat ds, none)
    else lineRangeMatch rest

/-- The accepted priority values. -/
def priorityValues : List (List Char) :=
  ["URGENT".data, "HIGH".data, "MEDIUM".data, "LOW".data]

/-- The body of the `while ((m = re.exec(markdown)))` loop for one match:
`none` when the candidate is dropped (unresolvable file, missing patch, or
unparsable line label). -/
def parseOneMatch (files : List PRFile) (m : RawMatch) : Option ParsedSuggestion :=
  let code0 := if m.code.isEmpty || (jsTrim m.code).isEmpty then m.codeAlt else m.code
  let priority := jsToUpper (jsTrim m.prioRaw)
  let normalizedPriority := if priorityValues.contains priority then priority else "MEDIUM".data
  let filename := jsTrim m.fileLabel
  match resolveFile filename files with
  | none => none
  | some file =>
    if patchFalsy file.patch then none
    else
      match lineRangeMatch m.linesLabel with
      | none => none
      | some (a, b) =>
        some ⟨file.filename, jsTrim m.issue, jsTrim code0,
          (a : Int), ((b.getD a : Nat) : Int), normalizedPriority, file⟩

/-- The dedup key `` `${s.path}:${s.startLine}:${s.issue.toLowerCase()}` ``. -/
def dedupKeyOf (s : ParsedSuggestion) : List Char :=
  s.path ++ ':' :: (toString s.startLine).data ++ ':' :: jsToLower s.issue

/-- The final dedup loop with its `seen` set. -/
def dedupSuggestions : List ParsedSuggestion → List (List Char) → List ParsedSuggestion
  | [], _ => []
  | s :: rest, seen =>
    if seen.contains (dedupKeyOf s) then dedupSuggestions rest seen
    else s :: dedupSuggestions rest (dedupKeyOf s :: seen)

/-- All candidates parsed by the loop, in parse order, before dedup. -/
def parsedCandidates (ms : List RawMatch) (files : List PRFile) : List ParsedSuggestion :=
  ms.filterMap (parseOneMatch files)

/-- `parseSuggestions` from the regex-match stream onward. -/
def parseSuggestionsFromMatches (ms : List RawMatch) (files : List PRFile) : List ParsedSuggestion :=
  dedupSuggestions (parsedCandidates ms files) []

/-! ### Identifiers exactly as the specification words them

The specification describes identifier extraction as "maximal
letter/digit/underscore runs of length > 2" — without the constraint,
imposed by the implementation's regex `[a-zA-Z_][a-zA-Z0-9_]*`, that a
token cannot begin with a digit.  These definitions follow the
specification's wording, to be compared against `extractIdentifiers`. -/

/-- Maximal word-character runs of length > 2, as a set. -/
def specIdentifiers (cs : List Char) : List (List Char) :=
  dedupFirst ((identRunsAux cs []).filter fun w => 2 < w.length) []

/-- The overlap set under the specification's identifier definition. -/
def specCommonIds (a b : List Char) : List (List Char) :=
  (specIdentifiers a).filter fun t => (specIdentifiers b).contains t

/-- The overlap ratio under the specification's identifier definition. -/
def specOverlapRatio (a b : List Char) : ℚ :=
  if 0 < (specIdentifiers a).length ∧ 0 < (specIdentifiers b).length then
    mkRat ((specCommonIds a b).length : Int)
      (max (specIdentifiers a).length (specIdentifiers b).length)
  else 0

/-! ## Theorems -/

/-- Whatever starts a list also starts any extension of it. -/
theorem startsLit_append_left :
    ∀ p a b : List Char, startsLit p a = true → startsLit p (a ++ b) = true
  | [], _, _, _ => rfl
  | x :: p', [], _, h => by simp [startsLit, dropLit] at h
  | x :: p', y :: a', b, h => by
    simp only [startsLit, dropLit, List.cons_append] at h ⊢
    by_cases hxy : x == y
    · simp only [hxy, if_true] at h ⊢
      exact startsLit_append_left p' a' b h
    · simp [hxy] at h

/-- If even the pattern's relevant initial segment fails on the first
part, the pattern fails on the whole concatenation. -/
theorem startsLit_false_of_take :
    ∀ p a b : List Char, startsLit (p.take a.length) a = false → startsLit p (a ++ b) = false
  | [], a, _, h => by simp [startsLit, dropLit] at h
  | _ :: _, [], _, h => by simp [startsLit, dropLit] at h
  | x :: p', y :: a', b, h => by
    simp only [List.length_cons, List.take, startsLit, dropLit, List.cons_append] at h ⊢
    by_cases hxy : x == y
    · simp only [hxy, if_true] at h ⊢
      exact startsLit_false_of_take p' a' b h
    · simp [hxy]

/-- C3: for a candidate with all lines present whose actual code has the
early-return-of-a-literal feature while the suggested code does not,
`validateSuggestion` rejects with the guard-clause reason — before any of
the later rules can interfere. -/
theorem guard_clause_protection (s : Suggestion) (m : LineMap)
    (hmiss : firstMissingLine s m = none) (hg : guardFires s m) :
    validateSuggestion s m = .ok ⟨false, some (guardReason (actualCodeOf s m)), none⟩ ∧
      startsLit "Removes guard clause/early return".data
        (guardReason (actualCodeOf s m)) = true := by
  constructor
  · simp only [validateSuggestion, hmiss, if_pos hg]
  · exact startsLit_append_left _ _ _ (by decide)

/-- Witness for C3 at the specification's own test vector. -/
theorem guard_clause_protection_witness :
    firstMissingLine ⟨1, 1, "doSomething();".data, []⟩
        [(1, ⟨"if (!valid) return false;".data, .context⟩)] = none ∧
      guardFires ⟨1, 1, "doSomething();".data, []⟩
        [(1, ⟨"if (!valid) return false;".data, .context⟩)] ∧
      validateSuggestion ⟨1, 1, "doSomething();".data, []⟩
        [(1, ⟨"if (!valid) return false;".data, .context⟩)] =
        .ok ⟨false, some (guardReason (actualCodeOf ⟨1, 1, "doSomething();".data, []⟩
          [(1, ⟨"if (!valid) return false;".data, .context⟩)])), none⟩ :=
  ⟨by decide, by decide,
    (guard_clause_protection _ _ (by decide) (by decide)).1⟩

/-- The candidate of the C4 analysis: three diff lines, first tokens
`beta` vs `omega`, overlap ratio exactly 1/4. -/
def c4Sugg : Suggestion := ⟨1, 3, "omega theta\nkappa alpha".data, []⟩

/-- The line map of the C4 analysis. -/
def c4Map : LineMap :=
  [(1, ⟨"beta alpha".data, .context⟩), (2, ⟨"gamma".data, .context⟩),
   (3, ⟨"delta".data, .context⟩)]

/-- C4: at a candidate satisfying every hypothesis of the multi-line
continuity rule (range spans three source lines, both first tokens exist
and differ, neither lies in the overlap set, overlap ratio 1/4 < 0.3),
`validateSuggestion` does not return the described rejection — it throws
`TypeError: commonIds.has is not a function`, because `commonIds` is an
`Array`, not a `Set`.  The repository's own changelog (v1.0.4) names this
very error as a bug. -/
theorem continuity_check_throws :
    firstMissingLine c4Sugg c4Map = none ∧
      2 ≤ c4Sugg.endLine - c4Sugg.startLine ∧
      tokensClash c4Sugg c4Map ∧
      (commonIdsOf c4Sugg c4Map).contains (getFirstToken (actualFirstLineOf c4Sugg c4Map)) = false ∧
      (commonIdsOf c4Sugg c4Map).contains (getFirstToken (suggestedFirstLineOf c4Sugg)) = false ∧
      overlapRatioVal c4Sugg c4Map = mkRat 1 4 ∧
      overlapRatioVal c4Sugg c4Map < mkRat 3 10 ∧
      validateSuggestion c4Sugg c4Map = .error commonIdsHasTypeError := by
  refine ⟨by decide, by decide, by decide, by decide, by decide, by decide, by decide, by decide⟩

/-- The candidate of the C5 analysis: short unrelated lines whose
identifier sets are empty, reaching the continuity check. -/
def c5Sugg : Suggestion := ⟨1, 3, "someSuggestedCodeHere".data, []⟩

/-- The line map of the C5 analysis. -/
def c5Map : LineMap :=
  [(1, ⟨"ax".data, .context⟩), (2, ⟨"by".data, .context⟩), (3, ⟨"cz".data, .context⟩)]

/-- C5: `validateSuggestion` is not total on verdicts — on this candidate
(every line exists, `startLine ≤ endLine`) it raises the uncaught
`TypeError` of the `commonIds.has` call instead of returning a verdict
object, contradicting the never-fatal design requirement. -/
theorem validation_throws_type_error :
    firstMissingLine c5Sugg c5Map = none ∧
      c5Sugg.startLine ≤ c5Sugg.endLine ∧
      validateSuggestion c5Sugg c5Map = .error commonIdsHasTypeError := by
  refine ⟨by decide, by decide, by decide⟩

/-- C10: when the actual code's identifier set is empty, no outcome of
`validateSuggestion` is the insufficient-identifier-overlap rejection —
the overlap floor requires a nonempty actual identifier set, so the check
is skipped rather than treated as 0 % overlap. -/
theorem empty_ids_skip_overlap_floor (s : Suggestion) (m : LineMap)
    (hmiss : firstMissingLine s m = none) (hempty : actualIdsOf s m = []) :
    ∀ r, validateSuggestion s m = .ok ⟨false, some r, none⟩ →
      startsLit "Insufficient identifier overlap".data r = false := by
  intro r hv
  simp only [validateSuggestion, hmiss] at hv
  split at hv
  · simp only [Except.ok.injEq, Verdict.mk.injEq, Option.some.injEq] at hv
    rw [← hv.2.1]
    exact startsLit_false_of_take _ _ _ (by decide)
  · split at hv
    · simp only [Except.ok.injEq, Verdict.mk.injEq, Option.some.injEq] at hv
      rw [← hv.2.1]
      exact startsLit_false_of_take _ _ _ (by decide)
    · split at hv
      · simp only [Except.ok.injEq, Verdict.mk.injEq, Option.some.injEq] at hv
        rw [← hv.2.1]
        exact startsLit_false_of_take _ _ _ (by decide)
      · split at hv
        · simp at hv
        · split at hv
          · rename_i hov
            obtain ⟨h1, -⟩ := hov
            rw [hempty] at h1
            simp at h1
          · split at hv
            · split at hv
              · simp at hv
              · simp at hv
            · simp at hv

/-- Witness for C10: an empty actual identifier set and zero shared
identifiers, yet no insufficient-overlap rejection (the candidate is
accepted). -/
theorem empty_ids_skip_overlap_floor_witness :
    firstMissingLine ⟨1, 1, "zz 11 22".data, []⟩ [(1, ⟨"a1 b2 c3 d4 e5 f6 g7 h8".data, .context⟩)] = none ∧
      actualIdsOf ⟨1, 1, "zz 11 22".data, []⟩ [(1, ⟨"a1 b2 c3 d4 e5 f6 g7 h8".data, .context⟩)] = [] ∧
      ∀ r, validateSuggestion ⟨1, 1, "zz 11 22".data, []⟩
          [(1, ⟨"a1 b2 c3 d4 e5 f6 g7 h8".data, .context⟩)] = .ok ⟨false, some r, none⟩ →
        startsLit "Insufficient identifier overlap".data r = false :=
  ⟨by decide, by decide,
    empty_ids_skip_overlap_floor _ _ (by decide) (by decide)⟩

/-- The candidate of the C6 analysis: all word runs open with digits, so
the implementation's identifier sets are empty while the specification's
are not. -/
def c6Sugg : Suggestion := ⟨1, 1, "99999 88888 77777 66666".data, []⟩

/-- The line map of the C6 analysis. -/
def c6Map : LineMap := [(1, ⟨"12345 67890 123456 1234".data, .context⟩)]

/-- C6 as stated fails: under the claim's identifier definition (maximal
letter/digit/underscore runs of length > 2, digit-initial runs included)
both sets are nonempty with overlap ratio 0 < 0.2 and the candidate
reaches the overlap check, yet `validateSuggestion` accepts it — the
implementation's regex `[a-zA-Z_][a-zA-Z0-9_]*` never starts a token at a
digit, leaving its own sets empty and the floor skipped. -/
theorem overlap_floor_spec_counterexample :
    firstMissingLine c6Sugg c6Map = none ∧
      ¬guardFires c6Sugg c6Map ∧
      ¬existenceFires c6Sugg c6Map ∧
      ¬rewriteFires c6Sugg c6Map ∧
      ¬lenientAccepts c6Sugg c6Map ∧
      specIdentifiers (actualCodeOf c6Sugg c6Map) ≠ [] ∧
      specIdentifiers (suggestedCodeOf c6Sugg) ≠ [] ∧
      specOverlapRatio (actualCodeOf c6Sugg c6Map) (suggestedCodeOf c6Sugg) < mkRat 1 5 ∧
      validateSuggestion c6Sugg c6Map = .ok ⟨true, none, some (actualCodeOf c6Sugg c6Map)⟩ := by
  refine ⟨by decide, by decide, by decide, by decide, by decide, by decide, by decide,
    by decide, by decide⟩

/-- C6 amended: with identifiers as the implementation extracts them
(leading digits stripped, token nonempty, length > 2), a candidate that
reaches the overlap check with both sets nonempty and ratio < 0.2 is
rejected for insufficient identifier overlap. -/
theorem overlap_floor (s : Suggestion) (m : LineMap)
    (hmiss : firstMissingLine s m = none) (h1 : ¬guardFires s m)
    (h2 : ¬existenceFires s m) (h3 : ¬rewriteFires s m)
    (h4 : ¬lenientAccepts s m) (h5 : overlapFires s m) :
    validateSuggestion s m =
      .ok ⟨false, some (overlapReason (overlapRatioVal s m) (actualCodeOf s m)
        (suggestedCodeOf s)), none⟩ ∧
      startsLit "Insufficient identifier overlap".data
        (overlapReason (overlapRatioVal s m) (actualCodeOf s m) (suggestedCodeOf s)) = true := by
  constructor
  · simp only [validateSuggestion, hmiss, if_neg h1, if_neg h2, if_neg h3, if_neg h4, if_pos h5]
  · exact startsLit_append_left _ _ _ (by decide)

/-- Witness for C6 (amended) at the specification's own overlap-floor test
vector. -/
theorem overlap_floor_witness :
    overlapFires ⟨1, 1, "print(hello_world);".data, []⟩
        [(1, ⟨"const x = compute(aValue, bValue);".data, .context⟩)] ∧
      validateSuggestion ⟨1, 1, "print(hello_world);".data, []⟩
        [(1, ⟨"const x = compute(aValue, bValue);".data, .context⟩)] =
        .ok ⟨false, some (overlapReason
          (overlapRatioVal ⟨1, 1, "print(hello_world);".data, []⟩
            [(1, ⟨"const x = compute(aValue, bValue);".data, .context⟩)])
          (actualCodeOf ⟨1, 1, "print(hello_world);".data, []⟩
            [(1, ⟨"const x = compute(aValue, bValue);".data, .context⟩)])
          (suggestedCodeOf ⟨1, 1, "print(hello_world);".data, []⟩)), none⟩ :=
  ⟨by decide,
    (overlap_floor _ _ (by decide) (by decide) (by decide) (by decide) (by decide)
      (by decide)).1⟩

/-- C7: given that every line exists and the guard-clause rule did not
fire, `validateSuggestion` returns a rejection whose reason speaks of
removing an existence/validation check exactly when the actual code has
the existence-check feature, the suggested code lacks it, and the issue
text does not explicitly mention removing or skipping a check. -/
theorem existence_check_protection (s : Suggestion) (m : LineMap)
    (hmiss : firstMissingLine s m = none) (hg : ¬guardFires s m) :
    (∃ r, validateSuggestion s m = .ok ⟨false, some r, none⟩ ∧
        startsLit "Removes existence/validation check".data r = true) ↔
      existenceFires s m := by
  constructor
  · rintro ⟨r, hv, hstart⟩
    by_contra hne
    simp only [validateSuggestion, hmiss, if_neg hg, if_neg hne] at hv
    split at hv
    · simp only [Except.ok.injEq, Verdict.mk.injEq, Option.some.injEq] at hv
      rw [← hv.2.1] at hstart
      have hf : startsLit "Removes existence/validation check".data
          (rewriteReason (actualCodeOf s m)) = false :=
        startsLit_false_of_take _ _ _ (by decide)
      rw [hf] at hstart
      exact Bool.false_ne_true hstart
    · split at hv
      · simp at hv
      · split at hv
        · simp only [Except.ok.injEq, Verdict.mk.injEq, Option.some.injEq] at hv
          rw [← hv.2.1] at hstart
          have hf : startsLit "Removes existence/validation check".data
              (overlapReason (overlapRatioVal s m) (actualCodeOf s m) (suggestedCodeOf s)) =
              false :=
            startsLit_false_of_take _ _ _ (by decide)
          rw [hf] at hstart
          exact Bool.false_ne_true hstart
        · split at hv
          · split at hv
            · simp at hv
            · simp at hv
          · simp at hv
  · intro he
    refine ⟨existenceReason (actualCodeOf s m), ?_, ?_⟩
    · simp only [validateSuggestion, hmiss, if_neg hg, if_pos he]
    · exact startsLit_append_left _ _ _ (by decide)

/-- Witness for C7: an unjustified removal of a `!== null` check is
rejected with the existence-check reason. -/
theorem existence_check_protection_witness :
    ∃ r, validateSuggestion ⟨1, 1, "use(userValue);".data, "cleanup".data⟩
        [(1, ⟨"if (userValue !== null) use(userValue);".data, .context⟩)] =
        .ok ⟨false, some r, none⟩ ∧
      startsLit "Removes existence/validation check".data r = true :=
  (existence_check_protection _ _ (by decide) (by decide)).mpr (by decide)

/-- A successful `find?` returns the first element satisfying the
predicate: everything before it fails. -/
theorem find?_first_decomp {α : Type} (p : α → Bool) :
    ∀ (l : List α) (f : α), l.find? p = some f →
      p f = true ∧ ∃ pre post, l = pre ++ f :: post ∧ ∀ g ∈ pre, p g = false
  | [], f, h => by simp at h
  | x :: xs, f, h => by
    by_cases hx : p x
    · rw [List.find?_cons_of_pos _ hx, Option.some.injEq] at h
      subst h
      exact ⟨hx, [], xs, rfl, by simp⟩
    · rw [List.find?_cons_of_neg _ (by simpa using hx)] at h
      obtain ⟨hp, pre, post, heq, hpre⟩ := find?_first_decomp p xs f h
      refine ⟨hp, x :: pre, post, by rw [heq]; rfl, ?_⟩
      intro g hg
      rw [List.mem_cons] at hg
      rcases hg with rfl | hg
      · simpa using hx
      · exact hpre g hg

/-- The files of the C8 analysis: a suffix-matching file listed before the
exactly-matching one. -/
def c8Files : List PRFile :=
  [⟨"abc/utils.js".data, some "p".data⟩, ⟨"utils.js".data, some "p".data⟩]

/-- C8 as stated fails: the changed-file list contains a file whose path
equals the label exactly, yet resolution returns the earlier-listed file,
which matches only by the (less exact) suffix criterion — `files.find`
scans files, not criteria, so there is no preference order among the
matching criteria. -/
theorem file_resolution_counterexample :
    resolveFile "utils.js".data c8Files = some ⟨"abc/utils.js".data, some "p".data⟩ ∧
      (⟨"utils.js".data, some "p".data⟩ : PRFile) ∈ c8Files ∧
      (PRFile.filename ⟨"utils.js".data, some "p".data⟩) = "utils.js".data ∧
      (PRFile.filename ⟨"abc/utils.js".data, some "p".data⟩) ≠ "utils.js".data ∧
      List.isSuffixOf "utils.js".data "abc/utils.js".data = true := by
  refine ⟨by decide, by decide, by decide, by decide, by decide⟩

/-- C8 amended: resolution scans the changed-file list in order and picks
the first file satisfying any of the five criteria (equality, suffix
either way, containment either way); every earlier file satisfies none of
them.  A label matching no file, or resolving to a file whose patch is
absent or empty, makes the candidate drop. -/
theorem file_resolution_first_match (filename : List Char) (files : List PRFile) :
    (∀ f, resolveFile filename files = some f →
        fileMatchPred filename f = true ∧
          ∃ pre post, files = pre ++ f :: post ∧
            ∀ g ∈ pre, fileMatchPred filename g = false) ∧
      (resolveFile filename files = none ↔
        ∀ f ∈ files, fileMatchPred filename f = false) ∧
      ∀ mtc : RawMatch, jsTrim mtc.fileLabel = filename →
        (resolveFile filename files = none ∨
          ∃ f, resolveFile filename files = some f ∧ patchFalsy f.patch = true) →
        parseOneMatch files mtc = none := by
  refine ⟨fun f hf => find?_first_decomp _ files f hf, ?_, ?_⟩
  · constructor
    · intro hn f hfm
      have := List.find?_eq_none.mp hn f hfm
      simpa using this
    · intro hall
      exact List.find?_eq_none.mpr fun f hfm => by simp [hall f hfm]
  · intro mtc hlabel hdrop
    rcases hdrop with hn | ⟨f, hs, hfalsy⟩
    · simp [parseOneMatch, hlabel, hn]
    · simp [parseOneMatch, hlabel, hs, hfalsy]

/-- Witness for C8 (amended): the three components at concrete inputs —
a resolved file with its decomposition, an unresolvable label, and a
candidate dropped for a missing patch. -/
theorem file_resolution_first_match_witness :
    (fileMatchPred "b.js".data ⟨"b.js".data, some "p".data⟩ = true ∧
      ∃ pre post,
        ([⟨"a.txt".data, some "p".data⟩, ⟨"b.js".data, some "p".data⟩] : List PRFile) =
          pre ++ ⟨"b.js".data, some "p".data⟩ :: post ∧
        ∀ g ∈ pre, fileMatchPred "b.js".data g = false) ∧
      (resolveFile "zzz".data [⟨"a.txt".data, some "p".data⟩] = none ↔
        ∀ f ∈ ([⟨"a.txt".data, some "p".data⟩] : List PRFile),
          fileMatchPred "zzz".data f = false) ∧
      parseOneMatch [⟨"a.txt".data, none⟩]
        ⟨"a.txt".data, "1".data, "i".data, [], "c".data, []⟩ = none :=
  ⟨(file_resolution_first_match "b.js".data
      [⟨"a.txt".data, some "p".data⟩, ⟨"b.js".data, some "p".data⟩]).1 _ (by decide),
   (file_resolution_first_match "zzz".data [⟨"a.txt".data, some "p".data⟩]).2.1,
   (file_resolution_first_match "a.txt".data [⟨"a.txt".data, none⟩]).2.2 _ (by decide)
     (Or.inr ⟨⟨"a.txt".data, none⟩, by decide, by decide⟩)⟩

/-- The dedup loop never invents elements and preserves order. -/
theorem dedupSuggestions_sublist :
    ∀ (l : List ParsedSuggestion) (seen : List (List Char)),
      List.Sublist (dedupSuggestions l seen) l
  | [], _ => List.nil_sublist _
  | s :: rest, seen => by
    unfold dedupSuggestions
    split
    · exact List.Sublist.cons _ (dedupSuggestions_sublist rest seen)
    · exact List.Sublist.cons₂ _ (dedupSuggestions_sublist rest _)

/-- The dedup loop emits pairwise distinct keys, none of them in `seen`. -/
theorem dedupSuggestions_nodup_fresh :
    ∀ (l : List ParsedSuggestion) (seen : List (List Char)),
      ((dedupSuggestions l seen).map dedupKeyOf).Nodup ∧
        ∀ s ∈ dedupSuggestions l seen, seen.contains (dedupKeyOf s) = false
  | [], _ => ⟨List.nodup_nil, by simp [dedupSuggestions]⟩
  | s :: rest, seen => by
    unfold dedupSuggestions
    split
    · exact dedupSuggestions_nodup_fresh rest seen
    · rename_i hc
      obtain ⟨hnd, hfresh⟩ := dedupSuggestions_nodup_fresh rest (dedupKeyOf s :: seen)
      rw [Bool.not_eq_true] at hc
      constructor
      · refine List.nodup_cons.mpr ⟨?_, hnd⟩
        intro hmem
        obtain ⟨t, ht, hkey⟩ := List.mem_map.mp hmem
        have := hfresh t ht
        rw [List.contains_cons, hkey] at this
        simp at this
      · intro t ht
        rw [List.mem_cons] at ht
        rcases ht with rfl | ht
        · exact hc
        · have := hfresh t ht
          rw [List.contains_cons] at this
          exact (Bool.or_eq_false_iff.mp this).2

/-- Any element whose key is fresh in `seen` and distinct from every
earlier element's key survives the dedup loop. -/
theorem dedupSuggestions_first_mem :
    ∀ (l : List ParsedSuggestion) (seen : List (List Char)) (i : Nat) (h : i < l.length),
      seen.contains (dedupKeyOf (l.get ⟨i, h⟩)) = false →
      (∀ c ∈ l.take i, dedupKeyOf c ≠ dedupKeyOf (l.get ⟨i, h⟩)) →
      l.get ⟨i, h⟩ ∈ dedupSuggestions l seen
  | [], _, i, h, _, _ => by simp at h
  | s :: rest, seen, 0, h, hfresh, _ => by
    unfold dedupSuggestions
    rw [if_neg (by simp_all)]
    exact List.mem_cons_self _ _
  | s :: rest, seen, j + 1, h, hfresh, htake => by
    have hj : j < rest.length := by simpa using h
    have hget : (s :: rest).get ⟨j + 1, h⟩ = rest.get ⟨j, hj⟩ := rfl
    rw [hget] at hfresh htake ⊢
    have hne : dedupKeyOf s ≠ dedupKeyOf (rest.get ⟨j, hj⟩) :=
      htake s (by simp [List.take_succ_cons])
    have htake' : ∀ c ∈ rest.take j, dedupKeyOf c ≠ dedupKeyOf (rest.get ⟨j, hj⟩) := by
      intro c hmem
      exact htake c (by simp [List.take_succ_cons, hmem])
    unfold dedupSuggestions
    split
    · exact dedupSuggestions_first_mem rest seen j hj hfresh htake'
    · refine List.mem_cons_of_mem _ ?_
      refine dedupSuggestions_first_mem rest _ j hj ?_ htake'
      rw [List.contains_cons, hfresh, Bool.or_false]
      exact beq_eq_false_iff_ne.mpr (Ne.symm hne)

/-- C9 amended: the output of the parse-and-dedup pipeline is a sublist of
the parsed candidates (so retained order is parse order), its string keys
`path:startLine:lowercased issue` are pairwise distinct, and every parsed
candidate whose key differs from all earlier candidates' keys is
retained. -/
theorem dedup_keeps_first_per_key (ms : List RawMatch) (files : List PRFile) :
    List.Sublist (parseSuggestionsFromMatches ms files) (parsedCandidates ms files) ∧
      ((parseSuggestionsFromMatches ms files).map dedupKeyOf).Nodup ∧
      ∀ (i : Nat) (h : i < (parsedCandidates ms files).length),
        (∀ c ∈ (parsedCandidates ms files).take i,
          dedupKeyOf c ≠ dedupKeyOf ((parsedCandidates ms files).get ⟨i, h⟩)) →
        (parsedCandidates ms files).get ⟨i, h⟩ ∈ parseSuggestionsFromMatches ms files :=
  ⟨dedupSuggestions_sublist _ _, (dedupSuggestions_nodup_fresh _ _).1,
   fun i h hcond => dedupSuggestions_first_mem _ _ i h rfl hcond⟩

/-- Witness for C9 (amended): two candidates sharing a key — the first is
retained, the second dropped, and the third (fresh key) retained. -/
theorem dedup_keeps_first_per_key_witness :
    ∀ (i : Nat) (h : i < (parsedCandidates
        [⟨"w.js".data, "1".data, "dup".data, [], "c1".data, []⟩,
         ⟨"w.js".data, "1".data, "dup".data, [], "c2".data, []⟩]
        [⟨"w.js".data, some "p".data⟩]).length),
      i = 0 →
      (parsedCandidates
        [⟨"w.js".data, "1".data, "dup".data, [], "c1".data, []⟩,
         ⟨"w.js".data, "1".data, "dup".data, [], "c2".data, []⟩]
        [⟨"w.js".data, some "p".data⟩]).get ⟨i, h⟩ ∈
        parseSuggestionsFromMatches
          [⟨"w.js".data, "1".data, "dup".data, [], "c1".data, []⟩,
           ⟨"w.js".data, "1".data, "dup".data, [], "c2".data, []⟩]
          [⟨"w.js".data, some "p".data⟩] := by
  intro i h hi
  subst hi
  exact (dedup_keeps_first_per_key _ _).2.2 0 h (by simp)

/-- The files of the C9 analysis (a path containing a colon). -/
def c9Files : List PRFile := [⟨"p:1".data, some "x".data⟩, ⟨"p".data, some "x".data⟩]

/-- First raw match of the C9 analysis: resolves to path `p:1`. -/
def c9m1 : RawMatch := ⟨"p:1".data, "7".data, "x".data, [], "c1".data, []⟩

/-- Second raw match of the C9 analysis: resolves to path `p`. -/
def c9m2 : RawMatch := ⟨"zp".data, "1".data, "7:x".data, [], "c2".data, []⟩

/-- Third raw match of the C9 analysis: same triple as the second. -/
def c9m3 : RawMatch := ⟨"zp".data, "1".data, "7:x".data, [], "c3".data, []⟩

/-- Candidate parsed from `c9m1`. -/
def c9s1 : ParsedSuggestion :=
  ⟨"p:1".data, "x".data, "c1".data, 7, 7, "MEDIUM".data, ⟨"p:1".data, some "x".data⟩⟩

/-- Candidate parsed from `c9m2`. -/
def c9s2 : ParsedSuggestion :=
  ⟨"p".data, "7:x".data, "c2".data, 1, 1, "MEDIUM".data, ⟨"p".data, some "x".data⟩⟩

/-- Candidate parsed from `c9m3`. -/
def c9s3 : ParsedSuggestion :=
  ⟨"p".data, "7:x".data, "c3".data, 1, 1, "MEDIUM".data, ⟨"p".data, some "x".data⟩⟩

/-- C9 as stated fails: the second and third parsed candidates share the
triple (resolved path, startLine, lowercased issue) and the second is the
earliest-parsed with that triple, yet it does not appear in the output —
the dedup key is the colon-joined string `path:startLine:issue`, and the
first candidate's key `p:1:7:x` collides with it although its triple
differs. -/
theorem dedup_counterexample :
    parsedCandidates [c9m1, c9m2, c9m3] c9Files = [c9s1, c9s2, c9s3] ∧
      c9s2.path = c9s3.path ∧ c9s2.startLine = c9s3.startLine ∧
      jsToLower c9s2.issue = jsToLower c9s3.issue ∧
      (c9s1.path, c9s1.startLine, jsToLower c9s1.issue) ≠
        (c9s2.path, c9s2.startLine, jsToLower c9s2.issue) ∧
      parseSuggestionsFromMatches [c9m1, c9m2, c9m3] c9Files = [c9s1] ∧
      c9s2 ∉ parseSuggestionsFromMatches [c9m1, c9m2, c9m3] c9Files := by
  refine ⟨by decide, by decide, by decide, by decide, by decide, by decide, by decide⟩

/-- The accumulator of `buildLineMap`'s walk only ever grows at the tail:
the final map is the starting map followed by the guarded replay. -/
theorem buildLineMapLines_eq_guarded :
    ∀ (lines : List (List Char)) (n : Int) (m : LineMap),
      buildLineMapLines lines n m = m ++ specDiffReplayGuarded lines n
  | [], _, m => by simp [buildLineMapLines, specDiffReplayGuarded]
  | line :: rest, n, m => by
    unfold buildLineMapLines specDiffReplayGuarded
    split
    · split
      · exact buildLineMapLines_eq_guarded rest _ m
      · exact buildLineMapLines_eq_guarded rest n m
    · split
      · exact buildLineMapLines_eq_guarded rest n m
      · split
        · exact buildLineMapLines_eq_guarded rest n m
        · split
          · rw [buildLineMapLines_eq_guarded rest (n + 1) (mapSet m n ⟨line.tail, .add⟩)]
            simp [mapSet]
          · split
            · rw [buildLineMapLines_eq_guarded rest (n + 1) (mapSet m n ⟨line.tail, .context⟩)]
              simp [mapSet]
            · exact buildLineMapLines_eq_guarded rest n m

/-- C2 amended: `buildLineMap` produces exactly the entries (keys, change
tags and contents) of the claim's replay once its ignore rule is stated as
the code implements it — lines are ignored exactly while the counter is 0
(its initial value, which a hunk header resetting to `newStart = 0` keeps),
not merely "before the first hunk header". -/
theorem line_map_matches_guarded_replay (patch : String) :
    buildLineMap patch = specDiffReplayGuarded (splitLines patch.data) 0 := by
  rw [buildLineMap, buildLineMapLines_eq_guarded]
  rfl

/-- C2 as stated fails: on the patch `@@ -1 +0,0 @@` + `+x` the claim's
replay (counter reset to the header's `newStart = 0`, then a `+` line
records at the counter) yields an entry at key 0, yet `buildLineMap`
returns the empty map — its `newLineNum === 0` guard also ignores lines
after a hunk header whose new-side start is 0. -/
theorem line_map_spec_replay_counterexample :
    buildLineMap "@@ -1 +0,0 @@\n+x" = [] ∧
      specDiffReplay (splitLines (String.data "@@ -1 +0,0 @@\n+x")) false 0 =
        [(0, ⟨"x".data, .add⟩)] := by
  refine ⟨by decide, by decide⟩

/-- `buildLineMap`'s walk produces exactly the instrumented records with
their positions erased. -/
theorem buildLineMapLines_eq_records :
    ∀ (lines : List (List Char)) (i : Nat) (n : Int) (m : LineMap),
      buildLineMapLines lines n m =
        m ++ (buildLineMapRecords lines i n).map (fun r => (r.1, r.2.2))
  | [], _, _, m => by simp [buildLineMapLines, buildLineMapRecords]
  | line :: rest, i, n, m => by
    unfold buildLineMapLines buildLineMapRecords
    split
    · split
      · exact buildLineMapLines_eq_records rest (i + 1) _ m
      · exact buildLineMapLines_eq_records rest (i + 1) n m
    · split
      · exact buildLineMapLines_eq_records rest (i + 1) n m
      · split
        · exact buildLineMapLines_eq_records rest (i + 1) n m
        · split
          · rw [buildLineMapLines_eq_records rest (i + 1) (n + 1)
              (mapSet m n ⟨line.tail, .add⟩)]
            simp [mapSet]
          · split
            · rw [buildLineMapLines_eq_records rest (i + 1) (n + 1)
                (mapSet m n ⟨line.tail, .context⟩)]
              simp [mapSet]
            · exact buildLineMapLines_eq_records rest (i + 1) n m

/-- In the active region (a hunk header with positive start has been
seen), `findPositionInPatch`'s walk returns exactly the position of the
first instrumented record carrying the target: the two counters stay in
lock step, the position counter one behind the record counter. -/
theorem fPIP_eq_records_active :
    ∀ (lines : List (List Char)) (i : Nat) (b target : Int),
      1 ≤ b → lines.all headerLineOk = true →
      findPositionInPatchLines lines i (b - 1) target =
        ((buildLineMapRecords lines i b).find? (fun r => r.1 == target)).map
          (fun r => r.2.1)
  | [], _, _, _, _, _ => rfl
  | line :: rest, i, b, target, hb, hok => by
    rw [List.all_cons, Bool.and_eq_true] at hok
    obtain ⟨hline, hrest⟩ := hok
    unfold findPositionInPatchLines buildLineMapRecords
    by_cases hh : isHeaderLine line = true
    · simp only [headerLineOk, hh, Bool.not_true, Bool.false_or, Bool.and_eq_true] at hline
      obtain ⟨hbf, hge⟩ := hline
      have hbf' : searchHeaderB line = searchHeaderF line := beq_iff_eq.mp hbf
      cases hsb : searchHeaderB line with
      | some k =>
        have hf : searchHeaderF line = some k := by rw [← hbf', hsb]
        rw [hsb] at hge
        simp only [hh, if_true, hsb, hf]
        have hgeN : 1 ≤ k := by simpa using hge
        have hk : (1 : Int) ≤ Int.ofNat k := Int.ofNat_le.mpr hgeN
        exact fPIP_eq_records_active rest (i + 1) (Int.ofNat k) target hk hrest
      | none =>
        have hf : searchHeaderF line = none := by rw [← hbf', hsb]
        simp only [hh, if_true, hsb, hf]
        exact fPIP_eq_records_active rest (i + 1) b target hb hrest
    · rw [Bool.not_eq_true] at hh
      have hb0 : (b == 0) = false := beq_eq_false_iff_ne.mpr (by omega)
      simp only [hh, Bool.false_eq_true, if_false, hb0]
      by_cases hminus : (line.head? == some '-') = true
      · simp only [hminus, if_true]
        exact fPIP_eq_records_active rest (i + 1) b target hb hrest
      · rw [Bool.not_eq_true] at hminus
        simp only [hminus, Bool.false_eq_true, if_false]
        by_cases hplus : (line.head? == some '+') = true
        · simp only [hplus, Bool.true_or, if_true, List.find?_cons]
          rw [Int.sub_add_cancel]
          by_cases ht : (b == target) = true
          · simp [ht]
          · rw [Bool.not_eq_true] at ht
            simp only [ht, Bool.false_eq_true, if_false]
            have ih := fPIP_eq_records_active rest (i + 1) (b + 1) target (by omega) hrest
            rw [show b + 1 - 1 = b from by omega] at ih
            exact ih
        · rw [Bool.not_eq_true] at hplus
          simp only [hplus, Bool.false_eq_true, Bool.false_or, if_false]
          by_cases hspace : (line.head? == some ' ') = true
          · simp only [hspace, if_true, List.find?_cons]
            rw [Int.sub_add_cancel]
            by_cases ht : (b == target) = true
            · simp [ht]
            · rw [Bool.not_eq_true] at ht
              simp only [ht, Bool.false_eq_true, if_false]
              have ih := fPIP_eq_records_active rest (i + 1) (b + 1) target (by omega) hrest
              rw [show b + 1 - 1 = b from by omega] at ih
              exact ih
          · rw [Bool.not_eq_true] at hspace
            simp only [hspace, Bool.false_eq_true, if_false]
            exact fPIP_eq_records_active rest (i + 1) b target hb hrest

/-- From the start of a well-formed patch (no addition/context line before
the first recognised hunk header), the two walks agree. -/
theorem fPIP_eq_records_inactive :
    ∀ (lines : List (List Char)) (i : Nat) (target : Int),
      lines.all headerLineOk = true →
      noPlusSpaceBeforeFirstHeader lines = true →
      findPositionInPatchLines lines i 0 target =
        ((buildLineMapRecords lines i 0).find? (fun r => r.1 == target)).map
          (fun r => r.2.1)
  | [], _, _, _, _ => rfl
  | line :: rest, i, target, hok, hnp => by
    rw [List.all_cons, Bool.and_eq_true] at hok
    obtain ⟨hline, hrest⟩ := hok
    unfold findPositionInPatchLines buildLineMapRecords
    by_cases hh : isHeaderLine line = true
    · simp only [headerLineOk, hh, Bool.not_true, Bool.false_or, Bool.and_eq_true] at hline
      obtain ⟨hbf, hge⟩ := hline
      have hbf' : searchHeaderB line = searchHeaderF line := beq_iff_eq.mp hbf
      cases hsb : searchHeaderB line with
      | some k =>
        have hf : searchHeaderF line = some k := by rw [← hbf', hsb]
        rw [hsb] at hge
        simp only [hh, if_true, hsb, hf]
        have hgeN : 1 ≤ k := by simpa using hge
        have hk : (1 : Int) ≤ Int.ofNat k := Int.ofNat_le.mpr hgeN
        exact fPIP_eq_records_active rest (i + 1) (Int.ofNat k) target hk hrest
      | none =>
        have hf : searchHeaderF line = none := by rw [← hbf', hsb]
        simp only [hh, if_true, hsb, hf]
        have hnp' : noPlusSpaceBeforeFirstHeader rest = true := by
          unfold noPlusSpaceBeforeFirstHeader at hnp
          rcases line with _ | ⟨a, _ | ⟨b, t⟩⟩
          · simp [isHeaderLine] at hh
          · simp [isHeaderLine] at hh
          · simp only [isHeaderLine] at hh
            rw [Bool.and_eq_true] at hh
            have ha : a = '@' := beq_iff_eq.mp hh.1
            subst ha
            simpa [hsb] using hnp
        exact fPIP_eq_records_inactive rest (i + 1) target hrest hnp'
    · rw [Bool.not_eq_true] at hh
      have hnpr : noPlusSpaceBeforeFirstHeader (line :: rest) = true := hnp
      unfold noPlusSpaceBeforeFirstHeader at hnpr
      rw [if_neg (by simp [hh])] at hnpr
      simp only [hh, Bool.false_eq_true, if_false]
      have h00 : ((0 : Int) == 0) = true := rfl
      simp only [h00, if_true]
      by_cases hminus : (line.head? == some '-') = true
      · simp only [hminus, if_true]
        have hnp' : noPlusSpaceBeforeFirstHeader rest = true := by
          rw [if_neg ?_] at hnpr
          · exact hnpr
          · intro hcontra
            rw [Bool.or_eq_true] at hcontra
            rcases hcontra with hc | hc
            · have h1 : line.head? = some '+' := beq_iff_eq.mp hc
              have h2 : line.head? = some '-' := beq_iff_eq.mp hminus
              rw [h1] at h2
              simp at h2
            · have h1 : line.head? = some ' ' := beq_iff_eq.mp hc
              have h2 : line.head? = some '-' := beq_iff_eq.mp hminus
              rw [h1] at h2
              simp at h2
        exact fPIP_eq_records_inactive rest (i + 1) target hrest hnp'
      · rw [Bool.not_eq_true] at hminus
        simp only [hminus, Bool.false_eq_true, if_false]
        by_cases hps : (line.head? == some '+' || line.head? == some ' ') = true
        · rw [if_pos hps] at hnpr
          simp at hnpr
        · rw [if_neg hps] at hnpr
          rw [Bool.not_eq_true, Bool.or_eq_false_iff] at hps
          simp only [hps.1, hps.2, Bool.false_eq_true, if_false, Bool.false_or]
          exact fPIP_eq_records_inactive rest (i + 1) target hrest hnpr

/-- Over an association list with duplicate-free keys, searching from the
back finds the same entry as searching from the front. -/
theorem find?_reverse_of_nodup {α : Type} :
    ∀ (l : List (Int × α)) (k : Int), (l.map Prod.fst).Nodup →
      l.reverse.find? (fun e => e.1 == k) = l.find? (fun e => e.1 == k)
  | [], _, _ => rfl
  | x :: xs, k, hnd => by
    rw [List.map_cons, List.nodup_cons] at hnd
    obtain ⟨hx, hxs⟩ := hnd
    rw [List.reverse_cons, List.find?_append, List.find?_cons]
    by_cases hk : (x.1 == k) = true
    · have hkeq : x.1 = k := beq_iff_eq.mp hk
      have hnone : xs.reverse.find? (fun e => e.1 == k) = none := by
        rw [List.find?_eq_none]
        intro e he
        rw [List.mem_reverse] at he
        simp only [Bool.not_eq_true, beq_eq_false_iff_ne]
        intro hek
        apply hx
        rw [hkeq, ← hek]
        exact List.mem_map_of_mem Prod.fst he
      rw [hnone]
      simp [List.find?_cons, hk]
    · rw [Bool.not_eq_true] at hk
      simp only [hk]
      rw [List.find?_cons]
      simp only [hk]
      rw [find?_reverse_of_nodup xs k hxs]
      cases xs.find? (fun e => e.1 == k) <;> rfl

/-- `Map.has` succeeds exactly when a forward search finds the key. -/
theorem mapHas_eq_find?_isSome (l : LineMap) (k : Int) :
    mapHas l k = (l.find? (fun e => e.1 == k)).isSome := by
  by_cases h : ∃ e ∈ l, (e.1 == k) = true
  · have h1 : mapHas l k = true := List.any_eq_true.mpr h
    have h2 : (l.find? (fun e => e.1 == k)).isSome = true := List.find?_isSome.mpr h
    rw [h1, h2]
  · have h1 : mapHas l k = false := by
      rw [← Bool.not_eq_true]
      exact fun hc => h (List.any_eq_true.mp hc)
    have h2 : (l.find? (fun e => e.1 == k)).isSome = false := by
      rw [← Bool.not_eq_true]
      exact fun hc => h (List.find?_isSome.mp hc)
    rw [h1, h2]

/-- C1 amended: on a well-formed patch — every `@@` line parses
identically under both header regexes with a new-side start of at least 1,
no addition/context line precedes the first recognised hunk header, and
the recorded new-file line numbers are pairwise distinct —
`findPositionInPatch` returns a position exactly when `buildLineMap` holds
the target as a key, and that position is the 1-based raw patch line index
at which `buildLineMap` recorded the entry that `get` returns for the
target; an unreached target yields `none`. -/
theorem position_resolution_agrees (patch : String)
    (hwf : wellFormedPatch patch = true)
    (hnd : ((buildLineMap patch).map Prod.fst).Nodup) :
    ∀ target : Int,
      match findPositionInPatch patch target with
      | none => mapHas (buildLineMap patch) target = false
      | some p => ∃ e, mapGet (buildLineMap patch) target = some e ∧
          (target, p, e) ∈ patchRecords patch := by
  intro target
  rw [wellFormedPatch, Bool.and_eq_true] at hwf
  obtain ⟨hok, hnp⟩ := hwf
  have hcore : findPositionInPatch patch target =
      ((patchRecords patch).find? (fun r => r.1 == target)).map (fun r => r.2.1) :=
    fPIP_eq_records_inactive (splitLines patch.data) 0 target hok hnp
  have hstrip : buildLineMap patch =
      (patchRecords patch).map (fun r => (r.1, r.2.2)) := by
    rw [buildLineMap, buildLineMapLines_eq_records (splitLines patch.data) 0 0 []]
    rfl
  have hkeys : ((patchRecords patch).map Prod.fst).Nodup := by
    have hsame : (buildLineMap patch).map Prod.fst = (patchRecords patch).map Prod.fst := by
      rw [hstrip, List.map_map]
      rfl
    rwa [hsame] at hnd
  have hpred : ((fun e : Int × LineInfo => e.1 == target) ∘
      fun r : Int × Nat × LineInfo => (r.1, r.2.2)) =
      fun r : Int × Nat × LineInfo => r.1 == target := rfl
  cases hfind : (patchRecords patch).find? (fun r => r.1 == target) with
  | none =>
    rw [hcore, hfind]
    simp only [Option.map_none']
    rw [mapHas_eq_find?_isSome, hstrip, List.find?_map, hpred, hfind]
    rfl
  | some r =>
    rw [hcore, hfind]
    simp only [Option.map_some']
    have hrk0 : (r.1 == target) = true := by
      have hps := List.find?_some hfind
      simpa using hps
    have hrk : r.1 = target := beq_iff_eq.mp hrk0
    have hmem : r ∈ patchRecords patch := List.mem_of_find?_eq_some hfind
    refine ⟨r.2.2, ?_, ?_⟩
    · rw [mapGet, hstrip, ← List.map_reverse, List.find?_map, hpred,
        find?_reverse_of_nodup _ target hkeys, hfind]
      rfl
    · have heta : (target, r.2.1, r.2.2) = r := by rw [← hrk]
      rw [heta]
      exact hmem

/-- C1 as stated fails: on the patch consisting of the single line ` x`
(no hunk header), `buildLineMap` indexes nothing, yet `findPositionInPatch`
returns position 1 for target line 1 — it counts addition/context lines
even before any hunk header, while `buildLineMap` ignores them. -/
theorem position_resolution_counterexample :
    findPositionInPatch " x" 1 = some 1 ∧
      buildLineMap " x" = [] ∧
      mapHas (buildLineMap " x") 1 = false := by
  refine ⟨by decide, by decide, by decide⟩

/-- The patch of the C1 witness: the specification's own
`@@ -1,3 +1,4 @@` hunk adding one line. -/
def c1Patch : String := "@@ -1,3 +1,4 @@\n a\n+b\n c\n d"

/-- Witness for C1 (amended): on the specification's test patch, target 2
(the added line) resolves to position 3, the raw index of the `+b` line,
and `buildLineMap` classifies it as added. -/
theorem position_resolution_agrees_witness :
    wellFormedPatch c1Patch = true ∧
      ((buildLineMap c1Patch).map Prod.fst).Nodup ∧
      (match findPositionInPatch c1Patch 2 with
       | none => mapHas (buildLineMap c1Patch) 2 = false
       | some p => ∃ e, mapGet (buildLineMap c1Patch) 2 = some e ∧
           (2, p, e) ∈ patchRecords c1Patch) :=
  ⟨by decide, by decide, position_resolution_agrees c1Patch (by decide) (by decide) 2⟩

end Aido
